import Mathlib

/-!
Verification development for a healthcare appointment-booking backend
(`main.py`, `schemas.py`, `database.py`, `chatbot_service.py`).

Modelling conventions:
* Python strings are modelled as lists of Unicode codepoints (`Str := List Nat`);
  `str.lower()` / `str.strip()` are modelled on the ASCII range, which covers
  every character admitted by the email regular expression of `schemas.py`.
* The SQLite database is modelled as an explicit record `DB` holding the two
  tables (`doctors`, `appointments`) plus autoincrement counters; SQLAlchemy
  queries become list traversals in table order.
* Each FastAPI handler that can raise `HTTPException` is modelled as a function
  returning `Except err res × DB`: raising leaves the database component equal
  to its input (no commit happened before the raise).
* `datetime.now()` is modelled by threading an abstract clock value `now : Nat`.
* The chatbot's in-memory `conversations` dict is an insertion-ordered
  association list; the external Groq completion call is abstracted as an
  `Except Str Str` outcome parameter (error detail, or generated text).
-/

/-- A Python string, as its list of Unicode codepoints. -/
abbrev Str := List Nat

/-- Row of the `doctors` table (`database.py`). -/
structure Doctor where
  id : Nat
  name : Str
  specialty : Str
  email : Str
  slots_per_day : Int
  deriving DecidableEq, Repr

/-- Row of the `appointments` table (`database.py`). -/
structure Appointment where
  id : Nat
  patient_name : Str
  appointment_date : Str
  time_slot : Str
  doctor_id : Nat
  is_cancelled : Bool
  deriving DecidableEq, Repr

/-- The relational store: both tables plus autoincrement id counters. -/
structure DB where
  doctors : List Doctor
  appointments : List Appointment
  next_doctor_id : Nat
  next_appointment_id : Nat
  deriving DecidableEq, Repr

/-- `get_doctor_available_slots` (main.py lines 32-37): count the doctor's
non-cancelled appointments and return `max(0, slots_per_day - booked)`. -/
def get_doctor_available_slots (db : DB) (doctor : Doctor) : Int :=
  let booked_appointments :=
    (db.appointments.filter
      (fun a => a.doctor_id == doctor.id && a.is_cancelled == false)).length
  max 0 (doctor.slots_per_day - (booked_appointments : Int))

/-- Errors raised by `book_appointment` (main.py), in the spec's taxonomy. -/
inductive BookError where
  | notFound
  | capacityExceeded
  | patientDoubleBooked
  | doctorSlotTaken
  deriving DecidableEq, Repr

/-- `book_appointment` (main.py lines 144-232): the four checks, in source
order, each raising before any write; on success the new appointment row is
inserted with `is_cancelled = false`. -/
def book_appointment (db : DB) (doctor_id : Nat)
    (patient_name appointment_date time_slot : Str) :
    Except BookError Appointment × DB :=
  match db.doctors.find? (fun d => d.id == doctor_id) with
  | none => (.error .notFound, db)
  | some doctor =>
    if get_doctor_available_slots db doctor ≤ 0 then
      (.error .capacityExceeded, db)
    else if (db.appointments.find? (fun a =>
        a.patient_name == patient_name &&
        a.appointment_date == appointment_date &&
        a.time_slot == time_slot &&
        a.is_cancelled == false)).isSome then
      (.error .patientDoubleBooked, db)
    else if (db.appointments.find? (fun a =>
        a.doctor_id == doctor_id &&
        a.appointment_date == appointment_date &&
        a.time_slot == time_slot &&
        a.is_cancelled == false)).isSome then
      (.error .doctorSlotTaken, db)
    else
      let apt : Appointment :=
        { id := db.next_appointment_id
          patient_name := patient_name
          appointment_date := appointment_date
          time_slot := time_slot
          doctor_id := doctor_id
          is_cancelled := false }
      (.ok apt,
        { db with
            appointments := db.appointments ++ [apt]
            next_appointment_id := db.next_appointment_id + 1 })

/-- Errors raised by `cancel_appointment` (main.py). -/
inductive CancelError where
  | notFound
  | alreadyCancelled
  deriving DecidableEq, Repr

/-- `cancel_appointment` (main.py lines 234-280): the lookup is an inner join
with `doctors` (`query(Appointment).join(Doctor)`), so a row matches only if a
doctor with its `doctor_id` exists; NotFound, then AlreadyCancelled, are raised
before any write; on success only the `is_cancelled` flag of the matched row is
set. -/
def cancel_appointment (db : DB) (appointment_id : Nat) :
    Except CancelError Unit × DB :=
  match db.appointments.find? (fun a =>
      a.id == appointment_id &&
      db.doctors.any (fun d => d.id == a.doctor_id)) with
  | none => (.error .notFound, db)
  | some appointment =>
    if appointment.is_cancelled then
      (.error .alreadyCancelled, db)
    else
      (.ok (),
        { db with
            appointments := db.appointments.map (fun a =>
              if a.id == appointment_id then { a with is_cancelled := true }
              else a) })

/-! ### String helpers (Python `str` methods, ASCII model) -/

/-- `str.lower()` on a single codepoint (ASCII model: map A-Z to a-z). -/
def toLowerCp (c : Nat) : Nat := if 65 ≤ c ∧ c ≤ 90 then c + 32 else c

/-- `str.lower()` on a whole string. -/
def lowerStr (s : Str) : Str := s.map toLowerCp

/-- ASCII whitespace removed by `str.strip()`: space, tab, LF, VT, FF, CR. -/
def isSpaceCp (c : Nat) : Bool := c == 32 || c == 9 || c == 10 || c == 11 || c == 12 || c == 13

/-- `str.strip()`: drop whitespace from both ends. -/
def stripStr (s : Str) : Str :=
  ((s.dropWhile isSpaceCp).reverse.dropWhile isSpaceCp).reverse

/-- Whether `a` heads `b` (helper for Python's substring test `a in b`). -/
def headsList (a b : Str) : Bool :=
  match a, b with
  | [], _ => true
  | _ :: _, [] => false
  | x :: xs, y :: ys => x == y && headsList xs ys

/-- Python's substring containment `needle in hay`. -/
def isSubstr (needle hay : Str) : Bool :=
  match hay with
  | [] => needle == []
  | _ :: t => headsList needle hay || isSubstr needle t

/-! ### `schemas.py` validators -/

/-- Character class `[a-zA-Z]` of the email regex. -/
def isAlphaCp (c : Nat) : Bool := (65 ≤ c && c ≤ 90) || (97 ≤ c && c ≤ 122)

/-- Character class `[0-9]`. -/
def isDigitCp (c : Nat) : Bool := 48 ≤ c && c ≤ 57

/-- Character class `[a-zA-Z0-9._%+-]` (the local part of the email regex). -/
def isLocalCp (c : Nat) : Bool :=
  isAlphaCp c || isDigitCp c || c == 46 || c == 95 || c == 37 || c == 43 || c == 45

/-- Character class `[a-zA-Z0-9.-]` (the domain part of the email regex). -/
def isDomainCp (c : Nat) : Bool :=
  isAlphaCp c || isDigitCp c || c == 46 || c == 45

/-- Split a string at the first occurrence of codepoint `sep`, if any. -/
def splitAtFirst (sep : Nat) : Str → Option (Str × Str)
  | [] => none
  | c :: rest =>
    if c == sep then some ([], rest)
    else
      match splitAtFirst sep rest with
      | some (a, b) => some (c :: a, b)
      | none => none

/-- Does a string match `[a-zA-Z0-9.-]+\.[a-zA-Z]{2,}$`? Because the top-level
domain must be all-alphabetic, a match forces the dot to sit directly before
the maximal alphabetic suffix. -/
def matchDomainTld (r : Str) : Bool :=
  let rev := r.reverse
  let tldRev := rev.takeWhile isAlphaCp
  let restRev := rev.drop tldRev.length
  decide (2 ≤ tldRev.length) &&
    match restRev with
    | [] => false
    | c :: domRev => c == 46 && !domRev.isEmpty && domRev.all isDomainCp

/-- Match of the full anchored email regex
`^[a-zA-Z0-9._%+-]+@[a-zA-Z0-9.-]+\.[a-zA-Z]{2,}$` of
`DoctorCreate.validate_email` (schemas.py lines 23-31). No character class
contains `@`, so a match splits the string at its unique `@`. -/
def matchEmailRegex (s : Str) : Bool :=
  match splitAtFirst 64 s with
  | none => false
  | some (localPart, rest) =>
    !localPart.isEmpty && localPart.all isLocalCp &&
      rest.all (fun c => !(c == 64)) && matchDomainTld rest

/-- `DoctorCreate.validate_email` (schemas.py lines 23-31): reject blank,
match the stripped value against the regex, return `v.strip().lower()`. -/
def validate_email (v : Str) : Option Str :=
  if (stripStr v).isEmpty then none
  else if matchEmailRegex (stripStr v) then some (lowerStr (stripStr v))
  else none

/-- `DoctorCreate.validate_strings` for `name` / `specialty` (schemas.py lines
17-21): reject blank, return `v.strip()`. -/
def validate_strings (v : Str) : Option Str :=
  if (stripStr v).isEmpty then none else some (stripStr v)

/-- `DoctorCreate.validate_slots` (schemas.py lines 11-15): positive only. -/
def validate_slots (v : Int) : Option Int :=
  if v ≤ 0 then none else some v

/-- Errors of the `add_doctor` pipeline: a Pydantic validation failure, or one
of the two duplicate checks of main.py (both are `DuplicateError` in the
spec's taxonomy, §7). -/
inductive AddDoctorError where
  | validationError
  | dupNameSpecialty
  | dupEmail
  deriving DecidableEq, Repr

/-- `add_doctor` (main.py lines 39-99) composed with the `DoctorCreate`
validators that ran on the request body: validate the four fields, then check
(name, specialty) uniqueness, then email uniqueness, then insert. -/
def add_doctor (db : DB) (name specialty email : Str) (slots_per_day : Int) :
    Except AddDoctorError Doctor × DB :=
  match validate_strings name, validate_strings specialty,
        validate_email email, validate_slots slots_per_day with
  | some n, some s, some e, some sl =>
    if (db.doctors.find? (fun d => d.name == n && d.specialty == s)).isSome then
      (.error .dupNameSpecialty, db)
    else if (db.doctors.find? (fun d => d.email == e)).isSome then
      (.error .dupEmail, db)
    else
      let doc : Doctor :=
        { id := db.next_doctor_id
          name := n
          specialty := s
          email := e
          slots_per_day := sl }
      (.ok doc,
        { db with
            doctors := db.doctors ++ [doc]
            next_doctor_id := db.next_doctor_id + 1 })
  | _, _, _, _ => (.error .validationError, db)

/-! ### `chatbot_service.py`: conversation session manager -/

/-- One entry of a session's message list (`{"role", "content", "timestamp"}`);
the `datetime.now().isoformat()` timestamp is the abstract clock value. -/
structure Message where
  role : Str
  content : Str
  timestamp : Nat
  deriving DecidableEq, Repr

/-- Value of `self.conversations[session_id]`. -/
structure Conversation where
  messages : List Message
  created_at : Nat
  last_activity : Nat
  deriving DecidableEq, Repr

/-- The chatbot's process-wide state: the `conversations` dict, modelled as an
insertion-ordered association list keyed by session id. -/
structure Chatbot where
  conversations : List (Str × Conversation)
  deriving DecidableEq, Repr

/-- Dict lookup `self.conversations.get(session_id)`. -/
def lookupConv (cs : List (Str × Conversation)) (sid : Str) : Option Conversation :=
  (cs.find? (fun p => p.1 == sid)).map (fun p => p.2)

/-- Dict update `self.conversations[session_id] = c`: overwrite in place if the
key exists, else append (Python dicts preserve insertion order). -/
def setConv (cs : List (Str × Conversation)) (sid : Str) (c : Conversation) :
    List (Str × Conversation) :=
  if (cs.find? (fun p => p.1 == sid)).isSome then
    cs.map (fun p => if p.1 == sid then (sid, c) else p)
  else cs ++ [(sid, c)]

/-- Pure observer of a session's current message list (empty if absent); used
only to state properties, it is not an operation of the source. -/
def historyOf (bot : Chatbot) (sid : Str) : List Message :=
  match lookupConv bot.conversations sid with
  | none => []
  | some c => c.messages

/-- The last `n` elements of a list (Python `lst[-n:]` for `n ≥ 1`). -/
def lastN (n : Nat) (l : List α) : List α := l.drop (l.length - n)

/-- `get_conversation_history` (chatbot_service.py lines 70-78): if the
session id is absent it INSERTS a fresh empty session record, then returns the
(possibly just-created) message list. -/
def get_conversation_history (bot : Chatbot) (sid : Str) (now : Nat) :
    List Message × Chatbot :=
  match lookupConv bot.conversations sid with
  | none =>
    let c : Conversation := { messages := [], created_at := now, last_activity := now }
    ([], { conversations := setConv bot.conversations sid c })
  | some c => (c.messages, bot)

/-- `add_message_to_history` (chatbot_service.py lines 80-100): create the
session if absent, append the message, truncate to the last 20 entries when
the length exceeds 20 (`messages[-20:]`), update `last_activity`. -/
def add_message_to_history (bot : Chatbot) (sid : Str) (role content : Str)
    (now : Nat) : Chatbot :=
  let c : Conversation :=
    match lookupConv bot.conversations sid with
    | none => { messages := [], created_at := now, last_activity := now }
    | some c => c
  let msgs := c.messages ++ [{ role := role, content := content, timestamp := now }]
  let msgs := if msgs.length > 20 then lastN 20 msgs else msgs
  { conversations :=
      setConv bot.conversations sid
        { c with messages := msgs, last_activity := now } }

/-- `clean_old_conversations` (chatbot_service.py lines 102-113): evict every
session whose `last_activity` predates `now - hours` (default 24; time is the
abstract clock, one unit per hour). -/
def clean_old_conversations (bot : Chatbot) (now : Nat) (hours : Nat := 24) :
    Chatbot :=
  { conversations :=
      bot.conversations.filter (fun p => !(p.2.last_activity < now - hours)) }

/-- The fixed apologetic fallback reply of `get_response`
(chatbot_service.py line 173). -/
def fallback_message : Str :=
  [73, 39, 109, 32, 115, 111, 114, 114, 121, 44, 32, 73, 39, 109, 32, 101, 120,
   112, 101, 114, 105, 101, 110, 99, 105, 110, 103, 32, 115, 111, 109, 101, 32,
   116, 101, 99, 104, 110, 105, 99, 97, 108, 32, 100, 105, 102, 102, 105, 99,
   117, 108, 116, 105, 101, 115, 46, 32, 80, 108, 101, 97, 115, 101, 32, 116,
   114, 121, 32, 97, 103, 97, 105, 110, 32, 105, 110, 32, 97, 32, 109, 111,
   109, 101, 110, 116, 32, 111, 114, 32, 99, 111, 110, 116, 97, 99, 116, 32,
   111, 117, 114, 32, 115, 117, 112, 112, 111, 114, 116, 32, 116, 101, 97, 109,
   32, 102, 111, 114, 32, 97, 115, 115, 105, 115, 116, 97, 110, 99, 101, 46]

/-- The role string "user". -/
def userRole : Str := [117, 115, 101, 114]

/-- The role string "assistant". -/
def assistantRole : Str := [97, 115, 115, 105, 115, 116, 97, 110, 116]

/-- The structured result dict of `get_response`. -/
structure RespResult where
  success : Bool
  response : Str
  error : Option Str
  conversation_length : Option Nat
  deriving DecidableEq, Repr

/-- `get_response` (chatbot_service.py lines 115-185). The Groq completion
call is abstracted by its outcome `client : Except Str Str` (error detail, or
generated text); the prompt built from the system persona and the last 10
turns only feeds that call, so it does not appear in the state. Success
appends the user message and the reply; any client failure is caught by the
`except` branch, which appends the user message and the fixed fallback and
reports `success = False` with the error detail in a separate field. -/
def get_response (bot : Chatbot) (user_message sid : Str)
    (client : Except Str Str) (now : Nat) : RespResult × Chatbot :=
  let bot := clean_old_conversations bot now
  let (_, bot) := get_conversation_history bot sid now
  match client with
  | .ok bot_response =>
    let bot := add_message_to_history bot sid userRole user_message now
    let bot := add_message_to_history bot sid assistantRole bot_response now
    ({ success := true
       response := bot_response
       error := none
       conversation_length := some (historyOf bot sid).length }, bot)
  | .error e =>
    let bot := add_message_to_history bot sid userRole user_message now
    let bot := add_message_to_history bot sid assistantRole fallback_message now
    ({ success := false
       response := fallback_message
       error := some e
       conversation_length := none }, bot)

/-! ### `chatbot_service.py`: doctor recommendation matcher -/

/-- The `specialty_keywords` dict (chatbot_service.py lines 213-223), in its
insertion order: heart, skin, bone, child, brain, eye, mental, pregnancy,
surgery, each mapping to its specialty substrings. -/
def specialty_keywords : List (Str × List Str) :=
  [([104, 101, 97, 114, 116],
      [[99, 97, 114, 100, 105, 111, 108, 111, 103, 121],
       [99, 97, 114, 100, 105, 97, 99]]),
   ([115, 107, 105, 110],
      [[100, 101, 114, 109, 97, 116, 111, 108, 111, 103, 121],
       [100, 101, 114, 109, 97, 116, 111, 108, 111, 103, 105, 115, 116]]),
   ([98, 111, 110, 101],
      [[111, 114, 116, 104, 111, 112, 101, 100, 105, 99],
       [111, 114, 116, 104, 111, 112, 101, 100, 105, 99, 115]]),
   ([99, 104, 105, 108, 100],
      [[112, 101, 100, 105, 97, 116, 114, 105, 99],
       [112, 101, 100, 105, 97, 116, 114, 105, 99, 115]]),
   ([98, 114, 97, 105, 110],
      [[110, 101, 117, 114, 111, 108, 111, 103, 121],
       [110, 101, 117, 114, 111, 108, 111, 103, 105, 115, 116]]),
   ([101, 121, 101],
      [[111, 112, 104, 116, 104, 97, 108, 109, 111, 108, 111, 103, 121],
       [111, 112, 104, 116, 104, 97, 108, 109, 111, 108, 111, 103, 105, 115, 116]]),
   ([109, 101, 110, 116, 97, 108],
      [[112, 115, 121, 99, 104, 105, 97, 116, 114, 121],
       [112, 115, 121, 99, 104, 111, 108, 111, 103, 121]]),
   ([112, 114, 101, 103, 110, 97, 110, 99, 121],
      [[111, 98, 115, 116, 101, 116, 114, 105, 99, 115],
       [103, 121, 110, 101, 99, 111, 108, 111, 103, 121]]),
   ([115, 117, 114, 103, 101, 114, 121],
      [[115, 117, 114, 103, 101, 114, 121],
       [115, 117, 114, 103, 105, 99, 97, 108]])]

/-- One suggestion dict built by `suggest_doctors_for_condition`. -/
structure Suggestion where
  id : Nat
  name : Str
  specialty : Str
  available_slots : Int
  relevance_score : Nat
  deriving DecidableEq, Repr

/-- The relevance computation of chatbot_service.py lines 239-248: an outer
guard (`specialty` contains some keyword of ANY category), then a loop over
the dict that sets the score to 10 and breaks at the first condition keyword
occurring in the lowered condition text whose category has a keyword occurring
in the lowered specialty; otherwise the score stays 0. -/
def relevanceScore (condition_lower specialty_lower : Str) : Nat :=
  if specialty_keywords.any (fun kv => kv.2.any (fun k => isSubstr k specialty_lower)) then
    match specialty_keywords.find? (fun kv =>
        isSubstr kv.1 condition_lower &&
        kv.2.any (fun k => isSubstr k specialty_lower)) with
    | some _ => 10
    | none => 0
  else 0

/-- Sort key of line 253: the pair (relevance_score, available_slots). -/
def suggKey (s : Suggestion) : Nat × Int := (s.relevance_score, s.available_slots)

/-- Strict descending comparison of sort keys (lexicographic). -/
def keyGt (a b : Suggestion) : Bool :=
  a.relevance_score > b.relevance_score ||
    (a.relevance_score == b.relevance_score && a.available_slots > b.available_slots)

/-- Insert `x` in front of the first element not strictly greater than it. -/
def insertDesc (x : Suggestion) : List Suggestion → List Suggestion
  | [] => [x]
  | y :: ys => if keyGt y x then y :: insertDesc x ys else x :: y :: ys

/-- Stable descending insertion sort: the unique reordering that is sorted by
`(relevance_score, available_slots)` descending and keeps key-equal elements
in input order — the behaviour of Python's stable
`list.sort(key=..., reverse=True)` (line 253). -/
def sortSuggestions : List Suggestion → List Suggestion
  | [] => []
  | x :: xs => insertDesc x (sortSuggestions xs)

/-- `suggest_doctors_for_condition` (chatbot_service.py lines 205-259): lower
the condition text, keep doctors with available slots, score each against the
keyword table, sort stably by (score, slots) descending, return the top 3. -/
def suggest_doctors_for_condition (condition : Str) (db : DB) : List Suggestion :=
  let condition_lower := lowerStr condition
  let suggestions := db.doctors.filterMap (fun d =>
    let available_slots :=
      max 0 (d.slots_per_day -
        ((db.appointments.filter
          (fun a => a.doctor_id == d.id && !a.is_cancelled)).length : Int))
    if available_slots > 0 then
      some { id := d.id
             name := d.name
             specialty := d.specialty
             available_slots := available_slots
             relevance_score := relevanceScore condition_lower (lowerStr d.specialty) }
    else none)
  (sortSuggestions suggestions).take 3

/-! ### Concrete sample values used by witnesses -/

/-- Sample patient name "alice". -/
def wAlice : Str := [97, 108, 105, 99, 101]

/-- Sample patient name "bob". -/
def wBob : Str := [98, 111, 98]

/-- Sample doctor name "smith". -/
def wSmith : Str := [115, 109, 105, 116, 104]

/-- Sample specialty "cardiology". -/
def wCardiology : Str := [99, 97, 114, 100, 105, 111, 108, 111, 103, 121]

/-- Sample specialty "dermatology". -/
def wDermatology : Str := [100, 101, 114, 109, 97, 116, 111, 108, 111, 103, 121]

/-- Sample email "s@x.com". -/
def wEmail : Str := [115, 64, 120, 46, 99, 111, 109]

/-- Sample date "2024-12-25". -/
def wDate : Str := [50, 48, 50, 52, 45, 49, 50, 45, 50, 53]

/-- Sample time slot "10:00". -/
def wTenAM : Str := [49, 48, 58, 48, 48]

/-- Sample time slot "11:00". -/
def wElevenAM : Str := [49, 49, 58, 48, 48]

/-- Sample doctor row: Smith, cardiology, one slot per day. -/
def wDoctor : Doctor :=
  { id := 1, name := wSmith, specialty := wCardiology, email := wEmail,
    slots_per_day := 1 }

/-- The empty store. -/
def wEmptyDB : DB :=
  { doctors := [], appointments := [], next_doctor_id := 1, next_appointment_id := 1 }

/-- Store holding just `wDoctor`. -/
def wDB1 : DB :=
  { doctors := [wDoctor], appointments := [], next_doctor_id := 2,
    next_appointment_id := 1 }

/-! ### Claim theorems -/

/-- Claim C2: for every doctor in the store, `availableSlots` equals
`slots_per_day` minus the number of its non-cancelled appointments, floored at
zero. -/
theorem available_slots_spec (db : DB) (d : Doctor) (hd : d ∈ db.doctors) :
    get_doctor_available_slots db d =
      max 0 (d.slots_per_day -
        (db.appointments.countP
          (fun a => decide (a.doctor_id = d.id ∧ a.is_cancelled = false)) : Int)) := by
  have hp : (fun (a : Appointment) => a.doctor_id == d.id && a.is_cancelled == false)
      = (fun a => decide (a.doctor_id = d.id ∧ a.is_cancelled = false)) := by
    funext a
    by_cases h1 : a.doctor_id = d.id <;> by_cases h2 : a.is_cancelled = false <;>
      simp [h1, h2]
  simp only [get_doctor_available_slots, List.countP_eq_length_filter, hp]

/-- Witness for C2 at a concrete store. -/
theorem available_slots_spec_witness :
    wDoctor ∈ wDB1.doctors ∧
      get_doctor_available_slots wDB1 wDoctor =
        max 0 (wDoctor.slots_per_day -
          (wDB1.appointments.countP
            (fun a => decide (a.doctor_id = wDoctor.id ∧ a.is_cancelled = false)) : Int)) :=
  ⟨by decide, available_slots_spec wDB1 wDoctor (by decide)⟩

/-- Claim C9: whenever `book_appointment` returns an error, the store is
completely unchanged, and in particular every doctor's available-slot count is
the same as before the call. -/
theorem book_error_preserves_state (db : DB) (doctor_id : Nat)
    (p dt t : Str) (e : BookError)
    (h : (book_appointment db doctor_id p dt t).1 = .error e) :
    (book_appointment db doctor_id p dt t).2 = db ∧
      ∀ d, get_doctor_available_slots ((book_appointment db doctor_id p dt t).2) d
        = get_doctor_available_slots db d := by
  have hdb : (book_appointment db doctor_id p dt t).2 = db := by
    cases hfind : db.doctors.find? (fun d => d.id == doctor_id) with
    | none => simp only [book_appointment, hfind]
    | some doctor =>
      by_cases h1 : get_doctor_available_slots db doctor ≤ 0
      · simp only [book_appointment, hfind, if_pos h1]
      · by_cases h2 : (db.appointments.find? (fun a =>
            a.patient_name == p && a.appointment_date == dt &&
            a.time_slot == t && a.is_cancelled == false)).isSome = true
        · simp only [book_appointment, hfind, if_neg h1, if_pos h2]
        · by_cases h3 : (db.appointments.find? (fun a =>
              a.doctor_id == doctor_id && a.appointment_date == dt &&
              a.time_slot == t && a.is_cancelled == false)).isSome = true
          · simp only [book_appointment, hfind, if_neg h1, if_neg h2, if_pos h3]
          · exfalso
            simp only [book_appointment, hfind, if_neg h1, if_neg h2, if_neg h3] at h
            exact Except.noConfusion h
  exact ⟨hdb, fun d => by rw [hdb]⟩

/-- Witness for C9: booking with an unknown doctor id errors and leaves the
empty store unchanged. -/
theorem book_error_preserves_state_witness :
    (book_appointment wEmptyDB 1 wAlice wDate wTenAM).1 = .error .notFound ∧
      (book_appointment wEmptyDB 1 wAlice wDate wTenAM).2 = wEmptyDB :=
  ⟨rfl,
    (book_error_preserves_state wEmptyDB 1 wAlice wDate wTenAM .notFound rfl).1⟩

/-- Claim C1: booking succeeds iff the four checks pass, in source order:
doctor exists, `availableSlots > 0`, no patient conflict, no doctor-slot
conflict; on failure the error is that of the first failing check, and the
store is returned untouched; a success creates a new non-cancelled
appointment row. The doctor-id Nodup hypothesis reflects the primary key of
the `doctors` table. -/
theorem book_appointment_check_order (db : DB) (doctor_id : Nat) (p dt t : Str)
    (hnodup : (db.doctors.map Doctor.id).Nodup) :
    ((∃ apt, (book_appointment db doctor_id p dt t).1 = .ok apt) ↔
      ((∃ d ∈ db.doctors, d.id = doctor_id) ∧
       (∀ d ∈ db.doctors, d.id = doctor_id → 0 < get_doctor_available_slots db d) ∧
       (¬ ∃ a ∈ db.appointments, a.patient_name = p ∧ a.appointment_date = dt ∧
          a.time_slot = t ∧ a.is_cancelled = false) ∧
       (¬ ∃ a ∈ db.appointments, a.doctor_id = doctor_id ∧ a.appointment_date = dt ∧
          a.time_slot = t ∧ a.is_cancelled = false)))
    ∧ (¬ (∃ d ∈ db.doctors, d.id = doctor_id) →
        book_appointment db doctor_id p dt t = (.error .notFound, db))
    ∧ ((∃ d ∈ db.doctors, d.id = doctor_id) →
       ¬ (∀ d ∈ db.doctors, d.id = doctor_id → 0 < get_doctor_available_slots db d) →
        book_appointment db doctor_id p dt t = (.error .capacityExceeded, db))
    ∧ ((∃ d ∈ db.doctors, d.id = doctor_id) →
       (∀ d ∈ db.doctors, d.id = doctor_id → 0 < get_doctor_available_slots db d) →
       (∃ a ∈ db.appointments, a.patient_name = p ∧ a.appointment_date = dt ∧
          a.time_slot = t ∧ a.is_cancelled = false) →
        book_appointment db doctor_id p dt t = (.error .patientDoubleBooked, db))
    ∧ ((∃ d ∈ db.doctors, d.id = doctor_id) →
       (∀ d ∈ db.doctors, d.id = doctor_id → 0 < get_doctor_available_slots db d) →
       (¬ ∃ a ∈ db.appointments, a.patient_name = p ∧ a.appointment_date = dt ∧
          a.time_slot = t ∧ a.is_cancelled = false) →
       (∃ a ∈ db.appointments, a.doctor_id = doctor_id ∧ a.appointment_date = dt ∧
          a.time_slot = t ∧ a.is_cancelled = false) →
        book_appointment db doctor_id p dt t = (.error .doctorSlotTaken, db))
    ∧ (∀ apt db2, book_appointment db doctor_id p dt t = (.ok apt, db2) →
        apt.is_cancelled = false ∧ db2.appointments = db.appointments ++ [apt]) := by
  have h3iff : (db.appointments.find? (fun a =>
      a.patient_name == p && a.appointment_date == dt &&
      a.time_slot == t && a.is_cancelled == false)).isSome = true ↔
      (∃ a ∈ db.appointments, a.patient_name = p ∧ a.appointment_date = dt ∧
        a.time_slot = t ∧ a.is_cancelled = false) := by
    simp [List.find?_isSome, and_assoc]
  have h4iff : (db.appointments.find? (fun a =>
      a.doctor_id == doctor_id && a.appointment_date == dt &&
      a.time_slot == t && a.is_cancelled == false)).isSome = true ↔
      (∃ a ∈ db.appointments, a.doctor_id = doctor_id ∧ a.appointment_date = dt ∧
        a.time_slot = t ∧ a.is_cancelled = false) := by
    simp [List.find?_isSome, and_assoc]
  cases hfind : db.doctors.find? (fun d => d.id == doctor_id) with
  | none =>
    have hnone : ¬ ∃ d ∈ db.doctors, d.id = doctor_id := by
      rw [List.find?_eq_none] at hfind
      rintro ⟨d, hd, hid⟩
      exact hfind d hd (by simp [hid])
    have hbook : book_appointment db doctor_id p dt t = (.error .notFound, db) := by
      simp only [book_appointment, hfind]
    refine ⟨?_, fun _ => hbook, fun h1 _ => absurd h1 hnone,
      fun h1 _ _ => absurd h1 hnone, fun h1 _ _ _ => absurd h1 hnone, ?_⟩
    · simp [hbook, hnone]
    · intro apt db2 h
      rw [hbook] at h
      exact absurd (congrArg Prod.fst h) (by simp)
  | some doctor =>
    have hdo : doctor ∈ db.doctors := List.mem_of_find?_eq_some hfind
    have hdid : doctor.id = doctor_id := by
      have := List.find?_some hfind
      simpa using this
    have hP1 : ∃ d ∈ db.doctors, d.id = doctor_id := ⟨doctor, hdo, hdid⟩
    have huniq : ∀ {d}, d ∈ db.doctors → d.id = doctor_id → d = doctor := by
      intro d hd hid
      exact List.inj_on_of_nodup_map hnodup hd hdo (hid.trans hdid.symm)
    by_cases h1 : get_doctor_available_slots db doctor ≤ 0
    · have hnP2 : ¬ ∀ d ∈ db.doctors, d.id = doctor_id →
          0 < get_doctor_available_slots db d := by
        intro hall
        exact absurd (hall doctor hdo hdid) (by omega)
      have hbook : book_appointment db doctor_id p dt t =
          (.error .capacityExceeded, db) := by
        simp only [book_appointment, hfind, if_pos h1]
      refine ⟨?_, fun hn => absurd hP1 hn, fun _ _ => hbook,
        fun _ hP2 _ => absurd hP2 hnP2, fun _ hP2 _ _ => absurd hP2 hnP2, ?_⟩
      · simp [hbook, hnP2]
      · intro apt db2 h
        rw [hbook] at h
        exact absurd (congrArg Prod.fst h) (by simp)
    · have hP2 : ∀ d ∈ db.doctors, d.id = doctor_id →
          0 < get_doctor_available_slots db d := by
        intro d hd hid
        rw [huniq hd hid]
        omega
      by_cases h2 : (db.appointments.find? (fun a =>
          a.patient_name == p && a.appointment_date == dt &&
          a.time_slot == t && a.is_cancelled == false)).isSome = true
      · have hnP3 : ∃ a ∈ db.appointments, a.patient_name = p ∧
            a.appointment_date = dt ∧ a.time_slot = t ∧ a.is_cancelled = false :=
          h3iff.mp h2
        have hbook : book_appointment db doctor_id p dt t =
            (.error .patientDoubleBooked, db) := by
          simp only [book_appointment, hfind, if_neg h1, if_pos h2]
        refine ⟨?_, fun hn => absurd hP1 hn, fun _ hn => absurd hP2 hn,
          fun _ _ _ => hbook, fun _ _ hn _ => absurd hnP3 hn, ?_⟩
        · simp only [hbook]
          simp [hnP3]
        · intro apt db2 h
          rw [hbook] at h
          exact absurd (congrArg Prod.fst h) (by simp)
      · have hP3 : ¬ ∃ a ∈ db.appointments, a.patient_name = p ∧
            a.appointment_date = dt ∧ a.time_slot = t ∧ a.is_cancelled = false :=
          fun hx => h2 (h3iff.mpr hx)
        by_cases h3 : (db.appointments.find? (fun a =>
            a.doctor_id == doctor_id && a.appointment_date == dt &&
            a.time_slot == t && a.is_cancelled == false)).isSome = true
        · have hnP4 : ∃ a ∈ db.appointments, a.doctor_id = doctor_id ∧
              a.appointment_date = dt ∧ a.time_slot = t ∧ a.is_cancelled = false :=
            h4iff.mp h3
          have hbook : book_appointment db doctor_id p dt t =
              (.error .doctorSlotTaken, db) := by
            simp only [book_appointment, hfind, if_neg h1, if_neg h2, if_pos h3]
          refine ⟨?_, fun hn => absurd hP1 hn, fun _ hn => absurd hP2 hn,
            fun _ _ hn => absurd (h3iff.mpr hn) h2, fun _ _ _ _ => hbook, ?_⟩
          · simp only [hbook]
            simp [hnP4]
          · intro apt db2 h
            rw [hbook] at h
            exact absurd (congrArg Prod.fst h) (by simp)
        · have hP4 : ¬ ∃ a ∈ db.appointments, a.doctor_id = doctor_id ∧
              a.appointment_date = dt ∧ a.time_slot = t ∧ a.is_cancelled = false :=
            fun hx => h3 (h4iff.mpr hx)
          have hbook : book_appointment db doctor_id p dt t =
              (.ok { id := db.next_appointment_id, patient_name := p,
                     appointment_date := dt, time_slot := t,
                     doctor_id := doctor_id, is_cancelled := false },
                { db with
                    appointments := db.appointments ++
                      [{ id := db.next_appointment_id, patient_name := p,
                         appointment_date := dt, time_slot := t,
                         doctor_id := doctor_id, is_cancelled := false }]
                    next_appointment_id := db.next_appointment_id + 1 }) := by
            simp only [book_appointment, hfind, if_neg h1, if_neg h2, if_neg h3]
          refine ⟨?_, fun hn => absurd hP1 hn, fun _ hn => absurd hP2 hn,
            fun _ _ hn => absurd (h3iff.mpr hn) h2,
            fun _ _ _ hn => absurd (h4iff.mpr hn) h3, ?_⟩
          · constructor
            · intro _
              exact ⟨hP1, hP2, hP3, hP4⟩
            · intro _
              exact ⟨_, congrArg Prod.fst hbook⟩
          · intro apt db2 h
            rw [hbook] at h
            have h' := congrArg Prod.fst h
            have h'' := congrArg Prod.snd h
            simp only at h' h''
            cases h'
            cases h''
            exact ⟨rfl, rfl⟩

/-! ### Window lemmas for the 20-message history cap -/

/-- The length of the last-`n` window is at most `n`. -/
theorem lastN_length_le (n : Nat) (l : List α) : (lastN n l).length ≤ n := by
  simp [lastN]
  omega

/-- A list short enough is its own last-`n` window. -/
theorem lastN_of_le {n : Nat} {l : List α} (h : l.length ≤ n) : lastN n l = l := by
  unfold lastN
  have : l.length - n = 0 := by omega
  rw [this, List.drop_zero]

/-- The last-0 window is empty. -/
theorem lastN_zero (l : List α) : lastN 0 l = [] := by
  unfold lastN
  rw [Nat.sub_zero, List.drop_length]

/-- The last-`n` window distributes over append. -/
theorem lastN_append_distrib (n : Nat) (a b : List α) :
    lastN n (a ++ b) = lastN (n - b.length) a ++ lastN n b := by
  rcases le_or_lt n b.length with hn | hn
  · have hz : n - b.length = 0 := by omega
    have ha : lastN 0 a = [] := by
      apply List.drop_eq_nil_of_le
      omega
    rw [hz, ha, List.nil_append]
    unfold lastN
    rw [List.drop_append_eq_append_drop]
    have h1 : a.drop ((a ++ b).length - n) = [] := by
      apply List.drop_eq_nil_of_le
      simp
      omega
    rw [h1, List.nil_append]
    congr 1
    simp
    omega
  · unfold lastN
    rw [List.drop_append_eq_append_drop]
    congr 1
    · congr 1
      simp
      omega
    · congr 1
      simp
      omega

/-- Nested last-`n` windows collapse to the smaller window. -/
theorem lastN_lastN (m n : Nat) (l : List α) :
    lastN m (lastN n l) = lastN (min m n) l := by
  unfold lastN
  rw [List.drop_drop]
  congr 1
  simp
  omega

/-- Re-windowing the left part of an append does not change the window. -/
theorem lastN_window_append (n : Nat) (a b : List α) :
    lastN n (lastN n a ++ b) = lastN n (a ++ b) := by
  rw [lastN_append_distrib, lastN_lastN, lastN_append_distrib]
  congr 2
  omega

/-- Looking up the key just written returns the written value. -/
theorem lookupConv_setConv (cs : List (Str × Conversation)) (sid : Str)
    (c : Conversation) : lookupConv (setConv cs sid c) sid = some c := by
  induction cs with
  | nil => simp [setConv, lookupConv]
  | cons q qs ih =>
    by_cases hq : (q.1 == sid) = true
    · have hfind : ((q :: qs).find? (fun p => p.1 == sid)) = some q :=
        List.find?_cons_of_pos qs hq
      unfold setConv
      rw [hfind]
      simp only [Option.isSome_some, if_pos]
      unfold lookupConv
      rw [List.map_cons, if_pos hq]
      simp [List.find?]
    · have hfind : ((q :: qs).find? (fun p => p.1 == sid)) = qs.find? (fun p => p.1 == sid) := by
        simp [List.find?, hq]
      unfold setConv at ih ⊢
      rw [hfind]
      by_cases hf : (qs.find? (fun p => p.1 == sid)).isSome = true
      · rw [if_pos hf]
        rw [if_pos hf] at ih
        rw [List.map_cons, if_neg hq]
        unfold lookupConv at ih ⊢
        simp only [List.find?, hq]
        exact ih
      · rw [if_neg hf]
        rw [if_neg hf] at ih
        rw [List.cons_append]
        unfold lookupConv at ih ⊢
        simp only [List.find?, hq]
        exact ih

/-- One `add_message_to_history` call slides the 20-message window: the new
history is the last 20 entries of the old history with the new message
appended. -/
theorem historyOf_add (bot : Chatbot) (sid role content : Str) (now : Nat) :
    historyOf (add_message_to_history bot sid role content now) sid =
      lastN 20 (historyOf bot sid ++
        [{ role := role, content := content, timestamp := now }]) := by
  have hcap : ∀ msgs : List Message,
      (if msgs.length > 20 then lastN 20 msgs else msgs) = lastN 20 msgs := by
    intro msgs
    by_cases h : msgs.length > 20
    · rw [if_pos h]
    · rw [if_neg h, lastN_of_le (by omega)]
  cases hl : lookupConv bot.conversations sid with
  | none =>
    simp only [add_message_to_history, historyOf, hl, hcap, lookupConv_setConv,
      List.nil_append]
  | some c =>
    simp only [add_message_to_history, historyOf, hl, hcap, lookupConv_setConv]

/-- A batch of sequential `appendMessage` calls for one session, each entry
giving (role, content, clock value). -/
def appendMessages (bot : Chatbot) (sid : Str) : List (Str × Str × Nat) → Chatbot
  | [] => bot
  | m :: ms => appendMessages (add_message_to_history bot sid m.1 m.2.1 m.2.2) sid ms

/-- The `Message` record built from one batch entry. -/
def mkMessage (m : Str × Str × Nat) : Message :=
  { role := m.1, content := m.2.1, timestamp := m.2.2 }

/-- Claim C3: for every session and every sequence of appends starting from a
history within the cap, the history afterwards is exactly the last-20 window
of old history plus appended messages, in original relative order, and its
length never exceeds 20; for 25 appends onto a fresh session this is exactly
the last 20 appended messages. -/
theorem history_window_spec (bot : Chatbot) (sid : Str) (ms : List (Str × Str × Nat))
    (h : (historyOf bot sid).length ≤ 20) :
    historyOf (appendMessages bot sid ms) sid
        = lastN 20 (historyOf bot sid ++ ms.map mkMessage) ∧
      (historyOf (appendMessages bot sid ms) sid).length ≤ 20 := by
  induction ms generalizing bot with
  | nil =>
    refine ⟨?_, by simpa [appendMessages] using h⟩
    simp only [appendMessages, List.map_nil, List.append_nil]
    rw [lastN_of_le h]
  | cons m ms ih =>
    have h1 := historyOf_add bot sid m.1 m.2.1 m.2.2
    have hlen : (historyOf (add_message_to_history bot sid m.1 m.2.1 m.2.2) sid).length
        ≤ 20 := by
      rw [h1]
      exact lastN_length_le 20 _
    obtain ⟨ihEq, ihLen⟩ := ih (add_message_to_history bot sid m.1 m.2.1 m.2.2) hlen
    have hstep : appendMessages bot sid (m :: ms)
        = appendMessages (add_message_to_history bot sid m.1 m.2.1 m.2.2) sid ms := rfl
    refine ⟨?_, by rw [hstep]; exact ihLen⟩
    rw [hstep, ihEq, h1, lastN_window_append, List.append_assoc]
    rfl

/-- 25 batch entries: roles "user", contents [k], timestamps k, `k < 25`. -/
def wBatch25 : List (Str × Str × Nat) :=
  (List.range 25).map (fun k => (userRole, ([k], k)))

/-- Witness for C3: after 25 sequential appends to a fresh session, the
history is exactly the last 20 appended messages in order. -/
theorem history_window_spec_witness :
    (historyOf { conversations := [] } wAlice).length ≤ 20 ∧
      historyOf (appendMessages { conversations := [] } wAlice wBatch25) wAlice
        = lastN 20 (historyOf { conversations := [] } wAlice ++ wBatch25.map mkMessage) ∧
      (historyOf (appendMessages { conversations := [] } wAlice wBatch25) wAlice).length
        ≤ 20 :=
  ⟨by decide, history_window_spec { conversations := [] } wAlice wBatch25 (by decide)⟩

/-- Counterexample to C4 as stated: looking up the history of an absent
session id on an empty session table returns the empty sequence but does NOT
leave the table unchanged — a session record is created. -/
theorem history_lookup_mutates_counterexample :
    (get_conversation_history { conversations := [] } wAlice 0).1 = [] ∧
      (get_conversation_history { conversations := [] } wAlice 0).2
        ≠ ({ conversations := [] } : Chatbot) := by
  constructor
  · rfl
  · intro h
    have : ((get_conversation_history { conversations := [] } wAlice 0).2).conversations
        = [] := by rw [h]
    simp [get_conversation_history, lookupConv, setConv] at this

/-- Claim C4 (amended): for an absent session id, the history lookup returns
the empty sequence, but it does create a session record: afterwards the id
maps to a fresh conversation with no messages (only the absence of mutation
fails in the original claim; the empty result holds). -/
theorem history_lookup_creates_session (bot : Chatbot) (sid : Str) (now : Nat)
    (h : lookupConv bot.conversations sid = none) :
    (get_conversation_history bot sid now).1 = [] ∧
      lookupConv (get_conversation_history bot sid now).2.conversations sid
        = some { messages := [], created_at := now, last_activity := now } := by
  constructor
  · simp only [get_conversation_history, h]
  · simp only [get_conversation_history, h, lookupConv_setConv]

/-- Witness for C4's amended claim on the empty session table. -/
theorem history_lookup_creates_session_witness :
    lookupConv ({ conversations := [] } : Chatbot).conversations wAlice = none ∧
      ((get_conversation_history { conversations := [] } wAlice 3).1 = [] ∧
        lookupConv
          (get_conversation_history { conversations := [] } wAlice 3).2.conversations
          wAlice = some { messages := [], created_at := 3, last_activity := 3 }) :=
  ⟨by decide, history_lookup_creates_session { conversations := [] } wAlice 3 (by decide)⟩

/-- Claim C7: when the completion client fails with any error detail, the
response reports `success = false`, carries the fixed apologetic fallback text
as the user-visible response, carries the error detail in the separate error
field, and the session history ends with the user message followed by the
fallback reply (both were appended, so the transcript matches what the user
saw). -/
theorem respond_fallback_spec (bot : Chatbot) (user_message sid : Str)
    (e : Str) (now : Nat) :
    (get_response bot user_message sid (.error e) now).1.success = false ∧
      (get_response bot user_message sid (.error e) now).1.response = fallback_message ∧
      (get_response bot user_message sid (.error e) now).1.error = some e ∧
      lastN 2 (historyOf (get_response bot user_message sid (.error e) now).2 sid)
        = [{ role := userRole, content := user_message, timestamp := now },
           { role := assistantRole, content := fallback_message, timestamp := now }] := by
  refine ⟨rfl, rfl, rfl, ?_⟩
  have hbot2 : (get_response bot user_message sid (.error e) now).2
      = add_message_to_history
          (add_message_to_history
            (get_conversation_history (clean_old_conversations bot now) sid now).2
            sid userRole user_message now)
          sid assistantRole fallback_message now := rfl
  rw [hbot2, historyOf_add, historyOf_add, lastN_window_append]
  set h0 := historyOf
    (get_conversation_history (clean_old_conversations bot now) sid now).2 sid with hh0
  have hassoc : h0 ++
      [{ role := userRole, content := user_message, timestamp := now }] ++
      [{ role := assistantRole, content := fallback_message, timestamp := now }]
      = h0 ++
        [{ role := userRole, content := user_message, timestamp := now },
         { role := assistantRole, content := fallback_message, timestamp := now }] := by
    rw [List.append_assoc]
    rfl
  rw [hassoc, lastN_lastN]
  have hmin : min 2 20 = 2 := by decide
  rw [hmin, lastN_append_distrib]
  have hlen2 : ([{ role := userRole, content := user_message, timestamp := now },
      { role := assistantRole, content := fallback_message, timestamp := now }] :
        List Message).length = 2 := rfl
  rw [hlen2, show (2 : Nat) - 2 = 0 from rfl, lastN_zero, List.nil_append,
    lastN_of_le (by rw [hlen2])]

/-- Witness for C1: on a store with one fully-booked doctor (1 slot, 1
non-cancelled appointment), booking fails even at a free time slot, and the
error is `capacityExceeded` — the second check fires first. -/
theorem book_appointment_check_order_witness :
    ((wDB1.doctors.map Doctor.id).Nodup) ∧
      (¬ (∃ d ∈ wDB1.doctors, d.id = 2) →
        book_appointment wDB1 2 wAlice wDate wTenAM = (.error .notFound, wDB1)) :=
  ⟨by decide, (book_appointment_check_order wDB1 2 wAlice wDate wTenAM (by decide)).2.1⟩

/-! ### Lemmas about appointment lookup and cancellation counting -/

/-- Under the appointments-have-doctors invariant and primary-key uniqueness,
the joined lookup of `cancel_appointment` finds exactly the member row with
the requested id. -/
theorem find?_joined_eq_some (ds : List Doctor) (l : List Appointment)
    (aid : Nat) (a : Appointment)
    (hnd : (l.map Appointment.id).Nodup)
    (hw : ∀ x ∈ l, ∃ d ∈ ds, d.id = x.doctor_id)
    (ha : a ∈ l) (hid : a.id = aid) :
    l.find? (fun x => x.id == aid && ds.any (fun d => d.id == x.doctor_id))
      = some a := by
  induction l with
  | nil => cases ha
  | cons x xs ih =>
    rcases List.mem_cons.mp ha with h | h
    · subst h
      have hjoin : ds.any (fun d => d.id == a.doctor_id) = true := by
        obtain ⟨d, hd, hdid⟩ := hw a (List.mem_cons_self a xs)
        exact List.any_eq_true.mpr ⟨d, hd, by simp [hdid]⟩
      have hpred : (a.id == aid && ds.any (fun d => d.id == a.doctor_id)) = true := by
        simp [hid, hjoin]
      exact List.find?_cons_of_pos xs hpred
    · have hxid : ¬ x.id = aid := by
        intro hx
        have hcons := (List.nodup_cons.mp hnd).1
        exact hcons (by
          have : a.id ∈ xs.map Appointment.id := List.mem_map_of_mem Appointment.id h
          rwa [hid, ← hx] at this)
      have hpred : ¬ (x.id == aid && ds.any (fun d => d.id == x.doctor_id)) = true := by
        simp [hxid]
      rw [List.find?_cons_of_neg xs hpred]
      exact ih (List.nodup_cons.mp hnd).2
        (fun y hy => hw y (List.mem_cons_of_mem x hy)) h

/-- Flipping the `is_cancelled` flag of one counted row decrements the
non-cancelled count of its doctor by exactly one. -/
theorem filter_length_after_cancel (l : List Appointment) (aid did : Nat)
    (a : Appointment)
    (hnd : (l.map Appointment.id).Nodup) (ha : a ∈ l) (hid : a.id = aid)
    (hdid : a.doctor_id = did) (hnc : a.is_cancelled = false) :
    ((l.map (fun x => if x.id == aid then { x with is_cancelled := true } else x)).filter
        (fun x => x.doctor_id == did && x.is_cancelled == false)).length
      = (l.filter (fun x => x.doctor_id == did && x.is_cancelled == false)).length
          - 1 := by
  induction l with
  | nil => cases ha
  | cons x xs ih =>
    rcases List.mem_cons.mp ha with h | h
    · subst h
      have hxs : xs.map (fun y => if y.id == aid then { y with is_cancelled := true }
          else y) = xs := by
        have hpt : ∀ y ∈ xs,
            (if y.id == aid then { y with is_cancelled := true } else y) = id y := by
          intro y hy
          have hcons := (List.nodup_cons.mp hnd).1
          have hyid : ¬ y.id = aid := by
            intro hyx
            exact hcons (by
              have hym : y.id ∈ xs.map Appointment.id :=
                List.mem_map_of_mem Appointment.id hy
              rwa [hid, ← hyx])
          simp [hyid]
        rw [List.map_eq_map_iff.mpr hpt, List.map_id]
      rw [List.map_cons, hxs, if_pos (by simp [hid])]
      rw [List.filter_cons, List.filter_cons]
      have hp1 : ({ a with is_cancelled := true }.doctor_id == did &&
          { a with is_cancelled := true }.is_cancelled == false) = false := by
        simp
      have hp2 : (a.doctor_id == did && a.is_cancelled == false) = true := by
        simp [hdid, hnc]
      rw [hp1, hp2]
      simp
    · have hxid : ¬ x.id = aid := by
        intro hx
        have hcons := (List.nodup_cons.mp hnd).1
        exact hcons (by
          have : a.id ∈ xs.map Appointment.id := List.mem_map_of_mem Appointment.id h
          rwa [hid, ← hx] at this)
      have hpos : 1 ≤ (xs.filter
          (fun y => y.doctor_id == did && y.is_cancelled == false)).length := by
        have hmem : a ∈ xs.filter (fun y => y.doctor_id == did && y.is_cancelled == false) :=
          List.mem_filter.mpr ⟨h, by simp [hdid, hnc]⟩
        have := List.ne_nil_of_mem hmem
        cases hl : (xs.filter (fun y => y.doctor_id == did && y.is_cancelled == false)) with
        | nil => exact absurd hl this
        | cons _ _ => simp [hl]
      have ihr := ih (List.nodup_cons.mp hnd).2 h
      have hxb : ¬ ((x.id == aid) = true) := by simp [hxid]
      rw [List.map_cons, if_neg hxb, List.filter_cons, List.filter_cons]
      by_cases hpx : (x.doctor_id == did && x.is_cancelled == false) = true
      · rw [hpx, if_pos rfl, if_pos rfl]
        simp only [List.length_cons]
        omega
      · rw [eq_false_of_ne_true hpx, if_neg (by simp), if_neg (by simp)]
        omega

/-- Claim C5: cancellation returns NotFound when no appointment has the id,
and AlreadyCancelled when the appointment's flag is already set; in both
cases the store is returned unchanged, so a repeat cancellation never
double-decrements any doctor's count and cancellation is one-way. The two
Nodup/foreign-key hypotheses reflect the primary key of `appointments` and
the doctor relationship every booked appointment has. -/
theorem cancel_error_spec (db : DB) (aid : Nat)
    (hnd : (db.appointments.map Appointment.id).Nodup)
    (hw : ∀ x ∈ db.appointments, ∃ d ∈ db.doctors, d.id = x.doctor_id) :
    ((¬ ∃ a ∈ db.appointments, a.id = aid) →
      cancel_appointment db aid = (.error .notFound, db)) ∧
    (∀ a ∈ db.appointments, a.id = aid → a.is_cancelled = true →
      cancel_appointment db aid = (.error .alreadyCancelled, db)) := by
  constructor
  · intro hno
    have hfind : db.appointments.find? (fun x => x.id == aid &&
        db.doctors.any (fun d => d.id == x.doctor_id)) = none := by
      rw [List.find?_eq_none]
      intro x hx
      have hxe : ¬ x.id = aid := fun hc => hno ⟨x, hx, hc⟩
      simp [hxe]
    simp only [cancel_appointment, hfind]
  · intro a ha hid hcan
    have hfind := find?_joined_eq_some db.doctors db.appointments aid a hnd hw ha hid
    simp only [cancel_appointment, hfind, hcan, if_true]

/-- Sample cancelled appointment row for the C5 witness. -/
def wAptCancelled : Appointment :=
  { id := 1, patient_name := wAlice, appointment_date := wDate,
    time_slot := wTenAM, doctor_id := 1, is_cancelled := true }

/-- Store with one doctor and one already-cancelled appointment. -/
def wDBCancelled : DB :=
  { doctors := [wDoctor], appointments := [wAptCancelled],
    next_doctor_id := 2, next_appointment_id := 2 }

/-- Witness for C5: re-cancelling the already-cancelled appointment yields
AlreadyCancelled and leaves the store untouched. -/
theorem cancel_error_spec_witness :
    (wDBCancelled.appointments.map Appointment.id).Nodup ∧
      cancel_appointment wDBCancelled 1 = (.error .alreadyCancelled, wDBCancelled) :=
  ⟨by decide,
    (cancel_error_spec wDBCancelled 1 (by decide) (by decide)).2
      wAptCancelled (by decide) rfl rfl⟩

/-- Claim C6: successfully cancelling a non-cancelled appointment of a doctor
whose non-cancelled count does not exceed `slots_per_day` increases that
doctor's `availableSlots` by exactly one, immediately visible to the next
`availableSlots` call; and in the concrete slots_per_day = 1 scenario,
booking then cancelling restores `availableSlots` to 1 and a booking at a
different time slot then succeeds. -/
theorem cancel_frees_one_slot (db : DB) (aid : Nat) (a : Appointment) (d : Doctor)
    (hnd : (db.appointments.map Appointment.id).Nodup)
    (hw : ∀ x ∈ db.appointments, ∃ dd ∈ db.doctors, dd.id = x.doctor_id)
    (ha : a ∈ db.appointments) (hid : a.id = aid)
    (hnc : a.is_cancelled = false) (hdid : a.doctor_id = d.id)
    (hcap : ((db.appointments.filter
        (fun x => x.doctor_id == d.id && x.is_cancelled == false)).length : Int)
      ≤ d.slots_per_day) :
    ((cancel_appointment db aid).1 = .ok () ∧
      get_doctor_available_slots (cancel_appointment db aid).2 d
        = get_doctor_available_slots db d + 1) ∧
    (get_doctor_available_slots
        ((cancel_appointment ((book_appointment wDB1 1 wAlice wDate wTenAM).2) 1).2)
        wDoctor = 1 ∧
      (book_appointment
        ((cancel_appointment ((book_appointment wDB1 1 wAlice wDate wTenAM).2) 1).2)
        1 wAlice wDate wElevenAM).1
        = .ok { id := 2, patient_name := wAlice, appointment_date := wDate,
                time_slot := wElevenAM, doctor_id := 1, is_cancelled := false }) := by
  refine ⟨?_, by constructor <;> rfl⟩
  have hfind := find?_joined_eq_some db.doctors db.appointments aid a hnd hw ha hid
  have hnotc : ¬ (a.is_cancelled = true) := by
    rw [hnc]
    exact Bool.false_ne_true
  have hres : cancel_appointment db aid =
      (.ok (), { db with appointments := db.appointments.map (fun x =>
        if x.id == aid then { x with is_cancelled := true } else x) }) := by
    simp only [cancel_appointment, hfind, if_neg hnotc]
  refine ⟨by rw [hres], ?_⟩
  rw [hres]
  have hcnt := filter_length_after_cancel db.appointments aid d.id a hnd ha hid hdid hnc
  have hpos : 1 ≤ (db.appointments.filter
      (fun x => x.doctor_id == d.id && x.is_cancelled == false)).length := by
    have hmem : a ∈ db.appointments.filter
        (fun x => x.doctor_id == d.id && x.is_cancelled == false) :=
      List.mem_filter.mpr ⟨ha, by simp [hdid, hnc]⟩
    have hne := List.ne_nil_of_mem hmem
    cases hl : (db.appointments.filter
        (fun x => x.doctor_id == d.id && x.is_cancelled == false)) with
    | nil => exact absurd hl hne
    | cons _ _ => simp [hl]
  unfold get_doctor_available_slots
  simp only [hcnt]
  set cnt := (db.appointments.filter
      (fun x => x.doctor_id == d.id && x.is_cancelled == false)).length with hcntdef
  have hcast : ((cnt - 1 : Nat) : Int) = (cnt : Int) - 1 := by
    have := Nat.cast_sub hpos (R := Int)
    simpa using this
  rw [hcast]
  have hc1 : (0 : Int) ≤ d.slots_per_day - (cnt : Int) := by omega
  rw [max_eq_right hc1, max_eq_right (by omega)]
  ring

/-- Store with one doctor (1 slot/day) and Alice's live appointment. -/
def wDBBooked : DB := (book_appointment wDB1 1 wAlice wDate wTenAM).2

/-- Alice's live appointment row inside `wDBBooked`. -/
def wAptBooked : Appointment :=
  { id := 1, patient_name := wAlice, appointment_date := wDate,
    time_slot := wTenAM, doctor_id := 1, is_cancelled := false }

/-- Witness for C6: cancelling Alice's appointment succeeds and raises the
doctor's available slots from 0 to 1. -/
theorem cancel_frees_one_slot_witness :
    wAptBooked ∈ wDBBooked.appointments ∧
      (cancel_appointment wDBBooked 1).1 = .ok () ∧
      get_doctor_available_slots (cancel_appointment wDBBooked 1).2 wDoctor
        = get_doctor_available_slots wDBBooked wDoctor + 1 :=
  ⟨by decide,
    (cancel_frees_one_slot wDBBooked 1 wAptBooked wDoctor (by decide) (by decide)
        (by decide) (by decide) (by decide) (by decide) (by decide)).1⟩

/-! ### Spec-side formulation of the recommendation matcher (claim C8) -/

/-- The candidate availability computation of chatbot_service.py lines
226-228 (`max(0, slots_per_day - len(non-cancelled appointments))`). -/
def availableSlotsOfDoctor (db : DB) (d : Doctor) : Int :=
  max 0 (d.slots_per_day -
    ((db.appointments.filter
      (fun a => a.doctor_id == d.id && !a.is_cancelled)).length : Int))

/-- Relevance per the claim's wording: exactly 10 when some condition keyword
occurring (as a substring) in the lower-cased condition text maps to a
specialty substring contained in the lower-cased specialty text, else 0. -/
def relevanceScoreSpec (condition specialty : Str) : Nat :=
  if ∃ kv ∈ specialty_keywords, isSubstr kv.1 (lowerStr condition) = true ∧
      ∃ w ∈ kv.2, isSubstr w (lowerStr specialty) = true then 10 else 0

/-- Candidate list per the claim's wording: doctors with available slots, in
input order, each scored by `relevanceScoreSpec`. -/
def candidatesSpec (condition : Str) (db : DB) : List Suggestion :=
  (db.doctors.filter (fun d => decide (0 < availableSlotsOfDoctor db d))).map
    (fun d =>
      { id := d.id, name := d.name, specialty := d.specialty,
        available_slots := availableSlotsOfDoctor db d,
        relevance_score := relevanceScoreSpec condition d.specialty })

/-- The matcher per the claim's wording: stable descending sort by
(relevance, slots), then the top 3. -/
def suggestSpec (condition : Str) (db : DB) : List Suggestion :=
  (sortSuggestions (candidatesSpec condition db)).take 3

/-- The implementation's guarded two-level loop computes exactly the
existential relevance rule of the claim. -/
theorem relevanceScore_eq (condition specialty : Str) :
    relevanceScore (lowerStr condition) (lowerStr specialty)
      = relevanceScoreSpec condition specialty := by
  unfold relevanceScore relevanceScoreSpec
  by_cases hex : ∃ kv ∈ specialty_keywords, isSubstr kv.1 (lowerStr condition) = true ∧
      ∃ w ∈ kv.2, isSubstr w (lowerStr specialty) = true
  · rw [if_pos hex]
    obtain ⟨kv, hkv, hc, w, hw, hs⟩ := hex
    have hguard : specialty_keywords.any
        (fun kv => kv.2.any (fun k => isSubstr k (lowerStr specialty))) = true :=
      List.any_eq_true.mpr ⟨kv, hkv, List.any_eq_true.mpr ⟨w, hw, hs⟩⟩
    rw [if_pos hguard]
    have hsome : (specialty_keywords.find? (fun kv =>
        isSubstr kv.1 (lowerStr condition) &&
        kv.2.any (fun k => isSubstr k (lowerStr specialty)))).isSome = true :=
      List.find?_isSome.mpr ⟨kv, hkv, by
        simp only [Bool.and_eq_true]
        exact ⟨hc, List.any_eq_true.mpr ⟨w, hw, hs⟩⟩⟩
    obtain ⟨v, hv⟩ := Option.isSome_iff_exists.mp hsome
    rw [hv]
  · rw [if_neg hex]
    by_cases hguard : specialty_keywords.any
        (fun kv => kv.2.any (fun k => isSubstr k (lowerStr specialty))) = true
    · rw [if_pos hguard]
      have hfind : specialty_keywords.find? (fun kv =>
          isSubstr kv.1 (lowerStr condition) &&
          kv.2.any (fun k => isSubstr k (lowerStr specialty))) = none := by
        rw [List.find?_eq_none]
        intro kv hkv hpred
        rw [Bool.and_eq_true] at hpred
        obtain ⟨w, hw, hs⟩ := List.any_eq_true.mp hpred.2
        exact hex ⟨kv, hkv, hpred.1, w, hw, hs⟩
      rw [hfind]
    · rw [if_neg hguard]

/-- The implementation's filterMap candidate construction equals the
filter-then-map formulation, for any doctor list over the same store. -/
theorem candidates_eq_aux (condition : Str) (db : DB) (l : List Doctor) :
    (l.filterMap (fun d =>
      let available_slots :=
        max 0 (d.slots_per_day -
          ((db.appointments.filter
            (fun a => a.doctor_id == d.id && !a.is_cancelled)).length : Int))
      if available_slots > 0 then
        some ({ id := d.id, name := d.name, specialty := d.specialty,
                available_slots := available_slots,
                relevance_score :=
                  relevanceScore (lowerStr condition) (lowerStr d.specialty) }
              : Suggestion)
      else none))
    = (l.filter (fun d => decide (0 < availableSlotsOfDoctor db d))).map
        (fun d =>
          ({ id := d.id, name := d.name, specialty := d.specialty,
             available_slots := availableSlotsOfDoctor db d,
             relevance_score := relevanceScoreSpec condition d.specialty }
           : Suggestion)) := by
  induction l with
  | nil => rfl
  | cons x xs ih =>
    rw [List.filterMap_cons, List.filter_cons]
    by_cases hp : 0 < availableSlotsOfDoctor db x
    · have hp' : (max 0 (x.slots_per_day -
          ((db.appointments.filter
            (fun a => a.doctor_id == x.id && !a.is_cancelled)).length : Int)) > 0) :=
        hp
      rw [if_pos hp']
      rw [if_pos (by simp [hp])]
      rw [List.map_cons, ih, relevanceScore_eq]
      rfl
    · have hp' : ¬ (max 0 (x.slots_per_day -
          ((db.appointments.filter
            (fun a => a.doctor_id == x.id && !a.is_cancelled)).length : Int)) > 0) :=
        hp
      rw [if_neg hp']
      rw [if_neg (by simp [hp]), ih]

/-- Propositional characterisation of the strict descending key comparison. -/
theorem keyGt_iff (a b : Suggestion) : keyGt a b = true ↔
    (b.relevance_score < a.relevance_score ∨
      (a.relevance_score = b.relevance_score ∧ b.available_slots < a.available_slots)) := by
  unfold keyGt
  simp [Nat.lt_iff_add_one_le]

/-- `keyGt` is asymmetric. -/
theorem keyGt_asymm {a b : Suggestion} (h : keyGt a b = true) : keyGt b a = false := by
  rw [← Bool.not_eq_true, keyGt_iff]
  rw [keyGt_iff] at h
  omega

/-- Failures of `keyGt` (non-strict reverse order) are transitive. -/
theorem keyGt_neg_trans {a b c : Suggestion} (hab : keyGt a b = false)
    (hbc : keyGt b c = false) : keyGt a c = false := by
  rw [← Bool.not_eq_true, keyGt_iff]
  rw [← Bool.not_eq_true, keyGt_iff] at hab hbc
  omega

/-- Membership in an insertion. -/
theorem mem_insertDesc {a x : Suggestion} {l : List Suggestion} :
    a ∈ insertDesc x l ↔ a = x ∨ a ∈ l := by
  induction l with
  | nil => simp [insertDesc]
  | cons y ys ih =>
    unfold insertDesc
    by_cases hk : keyGt y x = true
    · rw [if_pos hk]
      simp only [List.mem_cons, ih]
      tauto
    · rw [if_neg hk]
      simp only [List.mem_cons]

/-- The stable sort permutes nothing in or out. -/
theorem mem_sortSuggestions {a : Suggestion} {l : List Suggestion} :
    a ∈ sortSuggestions l ↔ a ∈ l := by
  induction l with
  | nil => simp [sortSuggestions]
  | cons x xs ih =>
    rw [show sortSuggestions (x :: xs) = insertDesc x (sortSuggestions xs) from rfl]
    rw [mem_insertDesc, ih, List.mem_cons]

/-- Inserting into a descending-sorted list keeps it descending-sorted. -/
theorem pairwise_insertDesc (x : Suggestion) (l : List Suggestion)
    (h : l.Pairwise (fun a b => keyGt b a = false)) :
    (insertDesc x l).Pairwise (fun a b => keyGt b a = false) := by
  induction l with
  | nil => simp [insertDesc]
  | cons y ys ih =>
    rcases List.pairwise_cons.mp h with ⟨hy, hys⟩
    unfold insertDesc
    by_cases hk : keyGt y x = true
    · rw [if_pos hk]
      refine List.pairwise_cons.mpr ⟨?_, ih hys⟩
      intro b hb
      rcases mem_insertDesc.mp hb with rfl | hbys
      · exact keyGt_asymm hk
      · exact hy b hbys
    · rw [if_neg hk]
      refine List.pairwise_cons.mpr ⟨?_, h⟩
      intro b hb
      rcases List.mem_cons.mp hb with rfl | hbys
      · exact eq_false_of_ne_true hk
      · exact keyGt_neg_trans (hy b hbys) (eq_false_of_ne_true hk)

/-- The stable sort produces a descending-sorted list. -/
theorem sortSuggestions_sorted (l : List Suggestion) :
    (sortSuggestions l).Pairwise (fun a b => keyGt b a = false) := by
  induction l with
  | nil => exact List.Pairwise.nil
  | cons x xs ih => exact pairwise_insertDesc x (sortSuggestions xs) ih

/-- Elements skipped by the insertion have strictly greater keys, so the
restriction of an insertion to any single key class is a plain cons or
no-op. -/
theorem filter_key_insertDesc (x : Suggestion) (l : List Suggestion) (k : Nat × Int) :
    (insertDesc x l).filter (fun s => decide (suggKey s = k))
      = (if suggKey x = k then x :: l.filter (fun s => decide (suggKey s = k))
         else l.filter (fun s => decide (suggKey s = k))) := by
  induction l with
  | nil =>
    unfold insertDesc
    by_cases hx : suggKey x = k
    · rw [if_pos hx, List.filter_cons, if_pos (by simp [hx])]
    · rw [if_neg hx, List.filter_cons, if_neg (by simp [hx])]
  | cons y ys ih =>
    unfold insertDesc
    by_cases hk : keyGt y x = true
    · rw [if_pos hk, List.filter_cons]
      by_cases hx : suggKey x = k
      · have hyk : ¬ suggKey y = k := by
          rw [keyGt_iff] at hk
          intro hyx
          have : suggKey y = suggKey x := hyx.trans hx.symm
          unfold suggKey at this
          have h1 : y.relevance_score = x.relevance_score := congrArg Prod.fst this
          have h2 : y.available_slots = x.available_slots := congrArg Prod.snd this
          omega
        rw [if_neg (by simp [hyk]), ih, if_pos hx, if_pos hx, List.filter_cons,
          if_neg (by simp [hyk])]
      · rw [ih, if_neg hx, if_neg hx, List.filter_cons]
    · rw [if_neg hk, List.filter_cons]
      by_cases hx : suggKey x = k
      · rw [if_pos (by simp [hx]), if_pos hx]
      · rw [if_neg (by simp [hx]), if_neg hx]

/-- Stability of the sort: each key class keeps its input order. -/
theorem sortSuggestions_stable (l : List Suggestion) (k : Nat × Int) :
    (sortSuggestions l).filter (fun s => decide (suggKey s = k))
      = l.filter (fun s => decide (suggKey s = k)) := by
  induction l with
  | nil => rfl
  | cons x xs ih =>
    rw [show sortSuggestions (x :: xs) = insertDesc x (sortSuggestions xs) from rfl,
      filter_key_insertDesc, List.filter_cons]
    by_cases hx : suggKey x = k
    · rw [if_pos hx, if_pos (by simp [hx]), ih]
    · rw [if_neg hx, if_neg (by simp [hx]), ih]

/-- Claim C8: the matcher equals its spec-side formulation — only doctors
with available slots are candidates, scored 10 exactly when a condition
keyword found in the lower-cased condition maps to a substring of the
lower-cased specialty and 0 otherwise, stably sorted by (relevance,
availability) descending with ties in input order, truncated to 3 — together
with the sortedness, stability and size facts themselves. -/
theorem suggest_spec_refinement (condition : Str) (db : DB) :
    suggest_doctors_for_condition condition db = suggestSpec condition db
    ∧ (suggest_doctors_for_condition condition db).length ≤ 3
    ∧ (∀ s ∈ suggest_doctors_for_condition condition db, 0 < s.available_slots)
    ∧ (sortSuggestions (candidatesSpec condition db)).Pairwise
        (fun a b => keyGt b a = false)
    ∧ (∀ k, (sortSuggestions (candidatesSpec condition db)).filter
          (fun s => decide (suggKey s = k))
        = (candidatesSpec condition db).filter (fun s => decide (suggKey s = k))) := by
  have heq : suggest_doctors_for_condition condition db = suggestSpec condition db := by
    simp only [suggest_doctors_for_condition, suggestSpec, candidatesSpec]
    rw [candidates_eq_aux condition db db.doctors]
  refine ⟨heq, ?_, ?_, sortSuggestions_sorted _, fun k => sortSuggestions_stable _ k⟩
  · rw [heq]
    exact List.length_take_le 3 _
  · intro s hs
    rw [heq] at hs
    have h1 : s ∈ sortSuggestions (candidatesSpec condition db) :=
      List.take_subset 3 _ hs
    have h2 : s ∈ candidatesSpec condition db := mem_sortSuggestions.mp h1
    unfold candidatesSpec at h2
    obtain ⟨d, hd, hds⟩ := List.mem_map.mp h2
    have hdp := (List.mem_filter.mp hd).2
    rw [← hds]
    simpa using hdp

/-! ### Case-invariance of the email regular expression -/

/-- Lower-casing keeps a codepoint alphabetic (both cases are in the class). -/
theorem isAlphaCp_toLower (c : Nat) : isAlphaCp (toLowerCp c) = isAlphaCp c := by
  unfold isAlphaCp toLowerCp
  split
  · rename_i h
    have h1 : (decide (65 ≤ c + 32) && decide (c + 32 ≤ 90)) = false := by
      rw [Bool.and_eq_false_iff]
      right
      simpa using by omega
    have h2 : (decide (97 ≤ c + 32) && decide (c + 32 ≤ 122)) = true := by
      rw [Bool.and_eq_true]
      constructor <;> simpa using by omega
    have h3 : (decide (65 ≤ c) && decide (c ≤ 90)) = true := by
      rw [Bool.and_eq_true]
      constructor <;> simpa using by omega
    rw [h1, h2, h3]
    rfl
  · rfl

/-- Lower-casing keeps a codepoint in the local-part class. -/
theorem isLocalCp_toLower (c : Nat) : isLocalCp (toLowerCp c) = isLocalCp c := by
  unfold isLocalCp
  rw [isAlphaCp_toLower]
  have hd : isDigitCp (toLowerCp c) = isDigitCp c := by
    unfold isDigitCp toLowerCp
    split
    · rename_i h
      have h1 : (decide (48 ≤ c + 32) && decide (c + 32 ≤ 57)) = false := by
        rw [Bool.and_eq_false_iff]
        right
        simpa using by omega
      have h2 : (decide (48 ≤ c) && decide (c ≤ 57)) = false := by
        rw [Bool.and_eq_false_iff]
        right
        simpa using by omega
      rw [h1, h2]
    · rfl
  rw [hd]
  have hs : ∀ k : Nat, k < 97 ∧ (k < 65 ∨ 90 < k) → ((toLowerCp c == k) = (c == k)) := by
    intro k hk
    unfold toLowerCp
    split
    · rename_i h
      have h1 : ¬ c + 32 = k := by omega
      have h2 : ¬ c = k := by omega
      simp [h1, h2]
    · rfl
  rw [hs 46 (by omega), hs 95 (by omega), hs 37 (by omega), hs 43 (by omega),
    hs 45 (by omega)]

/-- Lower-casing keeps a codepoint in the domain-part class. -/
theorem isDomainCp_toLower (c : Nat) : isDomainCp (toLowerCp c) = isDomainCp c := by
  unfold isDomainCp
  rw [isAlphaCp_toLower]
  have hd : isDigitCp (toLowerCp c) = isDigitCp c := by
    unfold isDigitCp toLowerCp
    split
    · rename_i h
      have h1 : (decide (48 ≤ c + 32) && decide (c + 32 ≤ 57)) = false := by
        rw [Bool.and_eq_false_iff]
        right
        simpa using by omega
      have h2 : (decide (48 ≤ c) && decide (c ≤ 57)) = false := by
        rw [Bool.and_eq_false_iff]
        right
        simpa using by omega
      rw [h1, h2]
    · rfl
  rw [hd]
  have hs : ∀ k : Nat, k < 97 ∧ (k < 65 ∨ 90 < k) → ((toLowerCp c == k) = (c == k)) := by
    intro k hk
    unfold toLowerCp
    split
    · rename_i h
      have h1 : ¬ c + 32 = k := by omega
      have h2 : ¬ c = k := by omega
      simp [h1, h2]
    · rfl
  rw [hs 46 (by omega), hs 45 (by omega)]

/-- Lower-casing neither creates nor destroys an `@` (codepoint 64). -/
theorem toLower_eq64 (c : Nat) : (toLowerCp c == 64) = (c == 64) := by
  unfold toLowerCp
  split
  · rename_i h
    have h0 : ¬ c + 32 = 64 := by omega
    have h1 : ¬ c = 32 := by omega
    have h2 : ¬ c = 64 := by omega
    simp [h0, h1, h2]
  · rfl

/-- Lower-casing neither creates nor destroys a dot (codepoint 46). -/
theorem toLower_eq46 (c : Nat) : (toLowerCp c == 46) = (c == 46) := by
  unfold toLowerCp
  split
  · rename_i h
    have h0 : ¬ c + 32 = 46 := by omega
    have h1 : ¬ c = 14 := by omega
    have h2 : ¬ c = 46 := by omega
    simp [h0, h1, h2]
  · rfl

/-- Splitting at `@` commutes with lower-casing. -/
theorem splitAtFirst_lower (s : Str) :
    splitAtFirst 64 (lowerStr s)
      = (splitAtFirst 64 s).map (fun p => (lowerStr p.1, lowerStr p.2)) := by
  induction s with
  | nil => rfl
  | cons c cs ih =>
    by_cases hc : (c == 64) = true
    · have hcv : c = 64 := by simpa using hc
      subst hcv
      rfl
    · have hlc : ¬ (toLowerCp c == 64) = true := by
        rw [toLower_eq64]
        exact hc
      show splitAtFirst 64 (toLowerCp c :: lowerStr cs) = _
      unfold splitAtFirst
      rw [if_neg hlc, if_neg hc, ih]
      cases h : splitAtFirst 64 cs with
      | none => rfl
      | some p => rfl

/-- The domain/TLD part of the regex is case-insensitive. -/
theorem matchDomainTld_lower (r : Str) :
    matchDomainTld (lowerStr r) = matchDomainTld r := by
  simp only [matchDomainTld]
  have h1 : (lowerStr r).reverse = (r.reverse).map toLowerCp :=
    List.reverse_map toLowerCp r
  rw [h1, List.takeWhile_map]
  have h2 : (isAlphaCp ∘ toLowerCp) = isAlphaCp := funext isAlphaCp_toLower
  rw [h2, List.length_map, ← List.map_drop]
  cases hrest : (r.reverse).drop ((r.reverse).takeWhile isAlphaCp).length with
  | nil => rfl
  | cons c cr =>
    rw [List.map_cons]
    have hall : (cr.map toLowerCp).all isDomainCp = cr.all isDomainCp := by
      rw [List.all_map]
      congr 1
      exact funext isDomainCp_toLower
    have hemp : (cr.map toLowerCp).isEmpty = cr.isEmpty := by
      cases cr <;> rfl
    simp only [toLower_eq46, hall, hemp]

/-- The whole email regex is case-insensitive. -/
theorem matchEmailRegex_lower (s : Str) :
    matchEmailRegex (lowerStr s) = matchEmailRegex s := by
  unfold matchEmailRegex
  rw [splitAtFirst_lower]
  cases h : splitAtFirst 64 s with
  | none => rfl
  | some p =>
    obtain ⟨lp, rest⟩ := p
    simp only [Option.map_some']
    rw [matchDomainTld_lower]
    have hemp : (lowerStr lp).isEmpty = lp.isEmpty := by
      cases lp <;> rfl
    have hloc : (lowerStr lp).all isLocalCp = lp.all isLocalCp := by
      unfold lowerStr
      rw [List.all_map]
      congr 1
      exact funext isLocalCp_toLower
    have h64 : (lowerStr rest).all (fun c => !(c == 64))
        = rest.all (fun c => !(c == 64)) := by
      unfold lowerStr
      rw [List.all_map]
      congr 1
      funext c
      simp only [Function.comp_apply, toLower_eq64]
    rw [hemp, hloc, h64]

/-- What a successful email validation says: the result is the stripped,
lower-cased input, which (stripped) is non-blank and matches the regex. -/
theorem validate_email_some {v n : Str} (h : validate_email v = some n) :
    n = lowerStr (stripStr v) ∧ matchEmailRegex (stripStr v) = true ∧
      ¬ stripStr v = [] := by
  unfold validate_email at h
  by_cases h0 : (stripStr v).isEmpty = true
  · rw [if_pos h0] at h
    cases h
  · rw [if_neg h0] at h
    by_cases hm : matchEmailRegex (stripStr v) = true
    · rw [if_pos hm] at h
      refine ⟨(Option.some.injEq _ _ ▸ h).symm, hm, ?_⟩
      intro hv
      exact h0 (by rw [hv]; rfl)
    · rw [if_neg hm] at h
      cases h

/-- Transfer of validity: an email differing from a valid one only in case
(after stripping) is itself valid, with the same normalized value. -/
theorem validate_email_of_lower_eq {e1 e2 : Str}
    (hm1 : matchEmailRegex (stripStr e1) = true) (hne1 : ¬ stripStr e1 = [])
    (heq : lowerStr (stripStr e1) = lowerStr (stripStr e2)) :
    validate_email e2 = some (lowerStr (stripStr e2)) := by
  have hm2 : matchEmailRegex (stripStr e2) = true := by
    rw [← matchEmailRegex_lower (stripStr e2), ← heq, matchEmailRegex_lower]
    exact hm1
  have hne2 : ¬ stripStr e2 = [] := by
    intro hv
    apply hne1
    have hl1 : lowerStr (stripStr e1) = [] := by
      rw [heq, hv]
      rfl
    exact List.map_eq_nil_iff.mp hl1
  unfold validate_email
  rw [if_neg (by simpa [List.isEmpty_iff] using hne2), if_pos hm2]

/-- Claim C10: `add_doctor` stores the stripped, lower-cased email, and a
second call whose email differs from a stored one only in case or surrounding
whitespace (and whose other fields pass validation) fails with one of the two
duplicate errors of the spec's `DuplicateError` taxonomy, leaving the store
unchanged. -/
theorem email_normalization_duplicate (db : DB) (n1 s1 e1 : Str) (sl1 : Int)
    (doc : Doctor) (db2 : DB) (n2 s2 e2 : Str) (sl2 : Int)
    (h1 : add_doctor db n1 s1 e1 sl1 = (.ok doc, db2))
    (heq : lowerStr (stripStr e1) = lowerStr (stripStr e2))
    (hn2 : ¬ stripStr n2 = []) (hs2 : ¬ stripStr s2 = []) (hsl2 : 0 < sl2) :
    doc.email = lowerStr (stripStr e1) ∧
      ∃ err, add_doctor db2 n2 s2 e2 sl2 = (.error err, db2) ∧
        (err = AddDoctorError.dupNameSpecialty ∨ err = AddDoctorError.dupEmail) := by
  cases hv1 : validate_strings n1 with
  | none =>
    simp only [add_doctor, hv1] at h1
    exact absurd (congrArg Prod.fst h1) (by simp)
  | some nn1 =>
  cases hv2 : validate_strings s1 with
  | none =>
    simp only [add_doctor, hv1, hv2] at h1
    exact absurd (congrArg Prod.fst h1) (by simp)
  | some ss1 =>
  cases hv3 : validate_email e1 with
  | none =>
    simp only [add_doctor, hv1, hv2, hv3] at h1
    exact absurd (congrArg Prod.fst h1) (by simp)
  | some ee1 =>
  cases hv4 : validate_slots sl1 with
  | none =>
    simp only [add_doctor, hv1, hv2, hv3, hv4] at h1
    exact absurd (congrArg Prod.fst h1) (by simp)
  | some ssl1 =>
  obtain ⟨hee1, hm1, hne1⟩ := validate_email_some hv3
  simp only [add_doctor, hv1, hv2, hv3, hv4] at h1
  by_cases hc1 : (db.doctors.find? (fun d => d.name == nn1 && d.specialty == ss1)).isSome
      = true
  · rw [if_pos hc1] at h1
    exact absurd (congrArg Prod.fst h1) (by simp)
  · rw [if_neg hc1] at h1
    by_cases hc2 : (db.doctors.find? (fun d => d.email == ee1)).isSome = true
    · rw [if_pos hc2] at h1
      exact absurd (congrArg Prod.fst h1) (by simp)
    · rw [if_neg hc2] at h1
      have hdoc : doc = { id := db.next_doctor_id, name := nn1,
                          specialty := ss1, email := ee1,
                          slots_per_day := ssl1 } := by
        have := congrArg Prod.fst h1
        simp only at this
        exact (Except.ok.injEq _ _ ▸ this).symm
      have hdb2 : db2 = { db with
                          doctors := db.doctors ++
                            [{ id := db.next_doctor_id, name := nn1,
                               specialty := ss1, email := ee1,
                               slots_per_day := ssl1 }],
                          next_doctor_id := db.next_doctor_id + 1 } := by
        have := congrArg Prod.snd h1
        simp only at this
        exact this.symm
      refine ⟨by rw [hdoc, ← hee1], ?_⟩
      have hv1' : validate_strings n2 = some (stripStr n2) := by
        unfold validate_strings
        rw [if_neg (by simpa [List.isEmpty_iff] using hn2)]
      have hv2' : validate_strings s2 = some (stripStr s2) := by
        unfold validate_strings
        rw [if_neg (by simpa [List.isEmpty_iff] using hs2)]
      have hv3' : validate_email e2 = some (lowerStr (stripStr e2)) :=
        validate_email_of_lower_eq hm1 hne1 heq
      have hv4' : validate_slots sl2 = some sl2 := by
        unfold validate_slots
        rw [if_neg (by omega)]
      by_cases hd1 : (db2.doctors.find? (fun d => d.name == stripStr n2 &&
          d.specialty == stripStr s2)).isSome = true
      · refine ⟨.dupNameSpecialty, ?_, Or.inl rfl⟩
        simp only [add_doctor, hv1', hv2', hv3', hv4', if_pos hd1]
      · refine ⟨.dupEmail, ?_, Or.inr rfl⟩
        have hd2 : (db2.doctors.find? (fun d =>
            d.email == lowerStr (stripStr e2))).isSome = true := by
          rw [List.find?_isSome]
          refine ⟨{ id := db.next_doctor_id, name := nn1,
                    specialty := ss1, email := ee1,
                    slots_per_day := ssl1 }, ?_, ?_⟩
          · rw [hdb2]
            simp
          · simp only [beq_iff_eq]
            rw [hee1, heq]
        simp only [add_doctor, hv1', hv2', hv3', hv4', if_neg hd1, if_pos hd2]

/-- Sample email "S@X.com " — `wEmail` with upper case and a trailing space. -/
def wEmailUpper : Str := [83, 64, 88, 46, 99, 111, 109, 32]

/-- Witness for C10: after registering Smith with "s@x.com", registering Bob
with "S@X.com " (different name and specialty) fails with the email duplicate
error. -/
theorem email_normalization_duplicate_witness :
    (add_doctor wEmptyDB wSmith wCardiology wEmail 1 = (.ok wDoctor, wDB1)) ∧
      (lowerStr (stripStr wEmail) = lowerStr (stripStr wEmailUpper)) ∧
      (wDoctor.email = lowerStr (stripStr wEmail) ∧
        ∃ err, add_doctor wDB1 wBob wDermatology wEmailUpper 2 = (.error err, wDB1) ∧
          (err = AddDoctorError.dupNameSpecialty ∨ err = AddDoctorError.dupEmail)) :=
  ⟨rfl, by decide,
    email_normalization_duplicate wEmptyDB wSmith wCardiology wEmail 1 wDoctor wDB1
      wBob wDermatology wEmailUpper 2 rfl (by decide) (by decide) (by decide)
      (by decide)⟩
